import Mathlib

/-!
Verification development for the letterfin extraction layer.

Shallow embedding of `src/parser/review_parser.py` (class `ReviewParser`)
and `src/parser/wheretowatch_parser.py` (class `WhereToWatchParser`).

The HTML/JSON byte-level parsers (BeautifulSoup's `html.parser`, `json.loads`)
are external libraries: the embedding works on the parsed document tree
(`Node`) and the parsed JSON value (`JValue`), exactly the values the
repository's own code receives from those libraries.  Python exceptions are
modelled with `Except PyExc`; machine floats are modelled by `Rat` (all
quantities the claims touch are exact decimals well inside double range).
-/

/-- Python exceptions that the embedded code can raise. -/
inductive PyExc where
  /-- Python `ValueError`, carrying its message. -/
  | valueError (msg : String)
  /-- Python `AttributeError` (e.g. attribute access on `None` or a non-dict). -/
  | attributeError
  /-- Python `TypeError`. -/
  | typeError
  /-- Python `KeyError`, carrying `str(e)` (the key's repr). -/
  | keyError (msg : String)
deriving DecidableEq, Repr

/-- ASCII whitespace as recognised by Python's `str.strip()` / regex `\s`
(Unicode whitespace beyond ASCII is not modelled). -/
def pyIsSpace (c : Char) : Bool :=
  c == ' ' || c == '\t' || c == '\n' || c == '\r' || c == '\x0b' || c == '\x0c'

/-- Drop trailing characters satisfying `p`. -/
def dropEndWhile (p : Char → Bool) (l : List Char) : List Char :=
  (l.reverse.dropWhile p).reverse

/-- Python `str.strip()` on a character list. -/
def stripChars (l : List Char) : List Char :=
  dropEndWhile pyIsSpace (l.dropWhile pyIsSpace)

/-- Python `str.strip()`. -/
def pyStrip (s : String) : String :=
  String.mk (stripChars s.toList)

/-- Python `str.strip('/')` (used for the user handle). -/
def stripSlashes (s : String) : String :=
  String.mk (dropEndWhile (fun c => c == '/') (s.toList.dropWhile (fun c => c == '/')))

/-- First component of collapsing: replace each maximal run of whitespace by a
single space, as `re.sub(r'\s+', ' ', text)` does.  The flag records whether
the previous character was part of a whitespace run. -/
def collapseRun : Bool → List Char → List Char
  | _, [] => []
  | prevWs, c :: rest =>
    if pyIsSpace c then
      (if prevWs then [] else [' ']) ++ collapseRun true rest
    else
      c :: collapseRun false rest

/-- First-match association-list lookup (Python dict access for the parsed,
duplicate-free attribute/JSON maps). -/
def alookup {β : Type} : List (String × β) → String → Option β
  | [], _ => none
  | (k, v) :: rest, key => if k == key then some v else alookup rest key

/-- Is the first list a prefix of the second? -/
def isPrefixChars : List Char → List Char → Bool
  | [], _ => true
  | _ :: _, [] => false
  | a :: ps, b :: qs => a == b && isPrefixChars ps qs

/-- Python `s.startswith(pre)`. -/
def strStartsWith (s pre : String) : Bool :=
  isPrefixChars pre.toList s.toList

/-- Does `pat` occur as a contiguous sublist? -/
def containsSub (pat : List Char) : List Char → Bool
  | [] => pat.isEmpty
  | c :: rest => isPrefixChars pat (c :: rest) || containsSub pat rest

/-- Python `needle in hay` on strings. -/
def strContains (hay needle : String) : Bool :=
  containsSub needle.toList hay.toList

/-- Left-to-right non-overlapping replacement of the nonempty pattern
`p0 :: ps` by `rep`.  The fuel argument (instantiated with the input length,
which bounds the number of steps) only makes the recursion structural. -/
def replaceCharsAux (p0 : Char) (ps rep : List Char) : Nat → List Char → List Char
  | 0, l => l
  | _ + 1, [] => []
  | fuel + 1, c :: rest =>
    if c == p0 && isPrefixChars ps rest then
      rep ++ replaceCharsAux p0 ps rep fuel (rest.drop ps.length)
    else
      c :: replaceCharsAux p0 ps rep fuel rest

/-- Python `s.replace(pat, rep)` for a nonempty pattern (the source only
replaces `'Z'` and `'<br>'`). -/
def pyReplace (s pat rep : String) : String :=
  match pat.toList with
  | [] => s
  | p0 :: ps => String.mk (replaceCharsAux p0 ps rep.toList s.toList.length s.toList)

/-- Split at every character satisfying `p` (the pieces between separators,
empty pieces included). -/
def splitOnPred (p : Char → Bool) : List Char → List (List Char)
  | [] => [[]]
  | x :: xs =>
    if p x then [] :: splitOnPred p xs
    else
      match splitOnPred p xs with
      | [] => [[x]]
      | q :: qs => (x :: q) :: qs

/-- Python `" ".join`-style joining. -/
def joinWith (sep : String) : List String → String
  | [] => ""
  | [x] => x
  | x :: rest => x ++ sep ++ joinWith sep rest

/-- A node of the parsed HTML document tree (BeautifulSoup's view of it):
an element with tag name, attributes and children, or a text node. -/
inductive Node where
  | elem (tag : String) (attrs : List (String × String)) (children : List Node)
  | text (s : String)

/-- Attributes of a node (text nodes have none). -/
def attrsOf : Node → List (String × String)
  | .elem _ a _ => a
  | .text _ => []

/-- Tag of a node; text nodes get a name no element can have. -/
def tagOf : Node → String
  | .elem t _ _ => t
  | .text _ => ""

/-- Is this an element node? -/
def isElem : Node → Bool
  | .elem _ _ _ => true
  | .text _ => false

/-- The class tokens of an element: BeautifulSoup splits the `class`
attribute on whitespace into a token list. -/
def classesOf (n : Node) : List String :=
  match alookup (attrsOf n) "class" with
  | some s => ((splitOnPred pyIsSpace s.toList).map (fun cs => String.mk cs)).filter (fun t => t != "")
  | none => []

/-- Matcher for `find(tag)` (any attributes). -/
def isTag (t : String) (n : Node) : Bool :=
  isElem n && tagOf n == t

/-- Matcher for `find(tag, class_=c)`: the tag matches and `c` is among the
element's class tokens. -/
def isTagClass (t c : String) (n : Node) : Bool :=
  isTag t n && (classesOf n).contains c

mutual
/-- All descendant nodes of `n` satisfying `p`, in document (pre-) order:
BeautifulSoup's `find_all`. -/
def findAllNode (p : Node → Bool) : Node → List Node
  | .text _ => []
  | .elem _ _ cs => findAllList p cs

/-- The `find_all` traversal over a forest, in document order. -/
def findAllList (p : Node → Bool) : List Node → List Node
  | [] => []
  | n :: rest => (if p n then [n] else []) ++ findAllNode p n ++ findAllList p rest
end

/-- BeautifulSoup's `find`: first matching descendant, document order. -/
def findNode (p : Node → Bool) (n : Node) : Option Node :=
  (findAllNode p n).head?

mutual
/-- BeautifulSoup's `get_text()`: concatenation of every text node in the
subtree, in document order. -/
def nodeText : Node → String
  | .text s => s
  | .elem _ _ cs => nodesText cs

/-- The `get_text` traversal over a forest. -/
def nodesText : List Node → String
  | [] => ""
  | n :: rest => nodeText n ++ nodesText rest
end

/-! ### Python numeric helpers -/

/-- Value of a digit list, most significant first. -/
def digitsVal (l : List Char) : Nat :=
  l.foldl (fun acc c => acc * 10 + (c.toNat - 48)) 0

/-- The digit-run part of Python `int(str)`: nonempty all-digit input, else
`ValueError`.  (Underscore digit separators and non-ASCII digits are not
modelled.) -/
def digitsToNatE (l : List Char) : Except PyExc Nat :=
  if l.isEmpty then .error (.valueError "invalid literal for int") else
  if l.all Char.isDigit then .ok (digitsVal l) else
  .error (.valueError "invalid literal for int")

/-- Sign-and-digits part of Python `int(str)`, applied after stripping. -/
def pyIntCore : List Char → Except PyExc Int
  | [] => .error (.valueError "invalid literal for int")
  | c :: rest =>
    if c == '+' then
      match digitsToNatE rest with
      | .ok n => .ok (Int.ofNat n)
      | .error e => .error e
    else if c == '-' then
      match digitsToNatE rest with
      | .ok n => .ok (-(Int.ofNat n))
      | .error e => .error e
    else
      match digitsToNatE (c :: rest) with
      | .ok n => .ok (Int.ofNat n)
      | .error e => .error e

/-- Python `int(s)`: strips whitespace, then an optional sign and digits. -/
def pyIntChars (cs : List Char) : Except PyExc Int :=
  pyIntCore (stripChars cs)

/-- Rendering `str(float)` of the value `n / 2`, for a half-step count `n` (the only
floats the rating code produces): `"3.5"`, `"4.0"`, ….  Faithful to CPython
for `n` below the range where `repr` of a double switches to scientific
notation. -/
def halfStr (n : Nat) : String :=
  toString (n / 2) ++ (if n % 2 == 1 then ".5" else ".0")

/-- Rendering `str(i / 2)` for a Python int `i` (the `rated-N` branch computes
`int(...) / 2`, a float). -/
def intHalfStr (i : Int) : String :=
  if i < 0 then "-" ++ halfStr i.natAbs else halfStr i.toNat

/-- Occurrences of a character in a string (`str.count` of a 1-char needle). -/
def countChar (c : Char) (s : String) : Nat :=
  s.toList.count c

/-- Membership `c in s` for a single-character needle. -/
def strHasChar (c : Char) (s : String) : Bool :=
  s.toList.contains c

/-- Python `str.split('-')` on a character list: split at every separator. -/
def splitOnChar (c : Char) : List Char → List (List Char)
  | [] => [[]]
  | x :: xs =>
    if x == c then [] :: splitOnChar c xs
    else
      match splitOnChar c xs with
      | [] => [[x]]
      | p :: ps => (x :: p) :: ps

/-! ### ReviewParser: the `Review` dataclass and field extractors -/

/-- The `Review` dataclass of `review_parser.py` (field order as in the
source). -/
structure Review where
  user : String
  user_image : String
  review_date : String
  review_text : String
  rating : Option String
  likes_count : Option Int
  contains_spoilers : Bool
deriving DecidableEq, Repr

/-- Evaluation of `urllib.parse.urljoin("https://letterboxd.com", url)` for a `url`
beginning with `'/'` (the only case the source feeds it): a network-path
reference `//host/...` keeps the base's scheme only, a root-relative path is
appended to the base. -/
def urljoinBase (url : String) : String :=
  if strStartsWith url "//" then "https:" ++ url else "https://letterboxd.com" ++ url

/-- Embeds `ReviewParser._extract_user_image` (lines 33-54): the avatar argument is
`element.find('a', class_='avatar')`, possibly `None`. -/
def extract_user_image (avatar : Option Node) : String :=
  match avatar with
  | none => ""
  | some a =>
    match findNode (isTag "img") a with
    | none => ""
    | some img =>
      match alookup (attrsOf img) "src" with
      | none => ""
      | some url => if strStartsWith url "/" then urljoinBase url else url

/-- Embeds `ReviewParser._extract_rating` (lines 56-86).  A `None` attribution block
raises `AttributeError` (`None.find`).  The `rated-` branch takes the first
matching class token, splits it on `'-'` and converts segment 1 with `int()`
(the segment exists because the token contains `'-'`; `List.getD` supplies an
unreachable default). -/
def extract_rating : Option Node → Except PyExc (Option String)
  | none => .error .attributeError
  | some ab =>
    match findNode (isTagClass "span" "rating") ab with
    | none => .ok none
    | some sp =>
      match (classesOf sp).filter (fun c => strStartsWith c "rated-") with
      | t :: _ =>
        match pyIntChars ((splitOnChar '-' t.toList).getD 1 []) with
        | .ok i => .ok (some (intHalfStr i))
        | .error e => .error e
      | [] =>
        let st := pyStrip (nodeText sp)
        if st == "" then .ok none
        else
          .ok (some (halfStr (2 * countChar '★' st +
            (if strHasChar '½' st then 1 else 0))))

/-- Embeds `ReviewParser._extract_likes_count` (lines 88-93), called on the content
div (never `None`). -/
def extract_likes_count (cd : Node) : Except PyExc (Option Int) :=
  match findNode (isTagClass "p" "like-link-target") cd with
  | some le =>
    match alookup (attrsOf le) "data-count" with
    | some v =>
      match pyIntChars v.toList with
      | .ok i => .ok (some i)
      | .error e => .error e
    | none => .ok none
  | none => .ok none

/-- Embeds `ReviewParser._clean_review_text` (lines 95-99): collapse whitespace runs
to single spaces, strip, then replace literal `"<br>"` by a newline. -/
def clean_review_text (s : String) : String :=
  pyReplace (String.mk (stripChars (collapseRun false s.toList))) "<br>" "\n"

/-! ### `datetime.fromisoformat` and `strftime('%d %b %Y')` models -/

/-- Two ASCII digits to a number. -/
def digit2 (a b : Char) : Option Nat :=
  if a.isDigit && b.isDigit then some ((a.toNat - 48) * 10 + (b.toNat - 48)) else none

/-- Four ASCII digits to a number. -/
def digit4 (a b c d : Char) : Option Nat :=
  match digit2 a b, digit2 c d with
  | some hi, some lo => some (hi * 100 + lo)
  | _, _ => none

/-- Gregorian leap year. -/
def isLeap (y : Nat) : Bool :=
  (y % 4 == 0 && y % 100 != 0) || y % 400 == 0

/-- Days in a month. -/
def daysInMonth (y m : Nat) : Nat :=
  if m == 2 then (if isLeap y then 29 else 28)
  else if m == 4 || m == 6 || m == 9 || m == 11 then 30
  else 31

/-- Index of the first occurrence of a character. -/
def idxOf (c : Char) : List Char → Option Nat
  | [] => none
  | x :: xs => if x == c then some 0 else (idxOf c xs).map (fun i => i + 1)

/-- Three- or six-digit fractional part, as `_parse_hh_mm_ss_ff` requires. -/
def fracOK (l : List Char) : Bool :=
  (l.length == 3 || l.length == 6) && l.all Char.isDigit

/-- CPython's pre-3.11 `_parse_hh_mm_ss_ff`: `HH[:MM[:SS[.fff or .ffffff]]]`,
each component two digits (its lenient `int()` slice corners are not
modelled). -/
def parseHMSF (cs : List Char) : Option (Nat × Nat × Nat) :=
  match cs with
  | a :: b :: rest =>
    match digit2 a b with
    | none => none
    | some h =>
      match rest with
      | [] => some (h, 0, 0)
      | ':' :: c :: d :: rest2 =>
        match digit2 c d with
        | none => none
        | some m =>
          match rest2 with
          | [] => some (h, m, 0)
          | ':' :: e :: f :: rest3 =>
            match digit2 e f with
            | none => none
            | some s =>
              match rest3 with
              | [] => some (h, m, s)
              | '.' :: frac => if fracOK frac then some (h, m, s) else none
              | _ => none
          | _ => none
      | _ => none
  | _ => none

/-- Validity of the time-of-day part of an isoformat string, with its
optional `±HH:MM[:SS[.ffffff]]` offset: CPython splits at the first `'-'`
(else first `'+'`), requires the offset text length in 5/8/15, parses both
parts with `_parse_hh_mm_ss_ff`, and the `datetime`/`timezone` constructors
bound the fields. -/
def parseTimeOk (cs : List Char) : Bool :=
  let split :=
    match idxOf '-' cs with
    | some i => some i
    | none => idxOf '+' cs
  match split with
  | none =>
    match parseHMSF cs with
    | some (h, m, s) => decide (h ≤ 23 ∧ m ≤ 59 ∧ s ≤ 59)
    | none => false
  | some i =>
    let tpart := cs.take i
    let tz := cs.drop (i + 1)
    (match parseHMSF tpart with
     | some (h, m, s) => decide (h ≤ 23 ∧ m ≤ 59 ∧ s ≤ 59)
     | none => false)
    && (tz.length == 5 || tz.length == 8 || tz.length == 15)
    && (match parseHMSF tz with
        | some (th, tm, ts) => decide (th * 3600 + tm * 60 + ts < 86400)
        | none => false)

/-- Embeds `datetime.fromisoformat` (pre-3.11 strict grammar, matching the source's
explicit `'Z' -> '+00:00'` workaround): `YYYY-MM-DD[*HH:MM[...]]`.  Only the
calendar fields are retained — `strftime('%d %b %Y')` reads nothing else. -/
def fromisoformat (s : String) : Option (Nat × Nat × Nat) :=
  match s.toList with
  | y1 :: y2 :: y3 :: y4 :: '-' :: m1 :: m2 :: '-' :: d1 :: d2 :: rest =>
    match digit4 y1 y2 y3 y4, digit2 m1 m2, digit2 d1 d2 with
    | some y, some mo, some d =>
      if decide (1 ≤ y ∧ 1 ≤ mo ∧ mo ≤ 12 ∧ 1 ≤ d ∧ d ≤ daysInMonth y mo) then
        match rest with
        | [] => some (y, mo, d)
        | _ :: timecs => if parseTimeOk timecs then some (y, mo, d) else none
      else none
    | _, _, _ => none
  | _ => none

/-- Directive `%b`: abbreviated month name, C locale. -/
def monthAbbr (m : Nat) : String :=
  match m with
  | 1 => "Jan" | 2 => "Feb" | 3 => "Mar" | 4 => "Apr"
  | 5 => "May" | 6 => "Jun" | 7 => "Jul" | 8 => "Aug"
  | 9 => "Sep" | 10 => "Oct" | 11 => "Nov" | _ => "Dec"

/-- Directive `%d`: zero-padded day. -/
def pad2 (d : Nat) : String :=
  (if d < 10 then "0" else "") ++ toString d

/-- Formatting `dt.strftime('%d %b %Y')`. -/
def fmtDMonY (d m y : Nat) : String :=
  pad2 d ++ " " ++ monthAbbr m ++ " " ++ toString y

/-- Embeds `ReviewParser._extract_review_date` (lines 101-114).  A `None`
attribution block raises `AttributeError` (`None.find`). -/
def extract_review_date : Option Node → Except PyExc String
  | none => .error .attributeError
  | some ab =>
    match findNode (isTagClass "span" "_nobr") ab with
    | none => .ok ""
    | some ds =>
      match findNode (isTag "time") ds with
      | some t =>
        match alookup (attrsOf t) "datetime" with
        | some v =>
          match fromisoformat (pyReplace v "Z" "+00:00") with
          | some (y, mo, d) => .ok (fmtDMonY d mo y)
          | none => .ok (pyStrip (nodeText ds))
        | none => .ok (pyStrip (nodeText ds))
      | none => .ok (pyStrip (nodeText ds))

/-! ### Spoiler gating and the top-level extraction loop -/

/-- The paragraphs of a subtree joined with single spaces:
`" ".join(p.get_text() for p in x.find_all('p'))`. -/
def joinPs (n : Node) : String :=
  joinWith " " ((findAllNode (isTag "p") n).map nodeText)

/-- Embeds `ReviewParser._extract_spoiler_text` (lines 116-136), on the possibly
absent body div. -/
def extract_spoiler_text (body : Option Node) : String × Bool :=
  match body with
  | none => ("", false)
  | some bt =>
    match findNode (isTagClass "p" "contains-spoilers") bt with
    | some _ =>
      match findNode (isTagClass "div" "hidden-spoilers") bt with
      | some hd => (clean_review_text (joinPs hd), true)
      | none => (clean_review_text "", true)
    | none => (clean_review_text (joinPs bt), false)

/-- One iteration of the `extract_reviews` loop (lines 148-171): `none`
means the `continue` taken when the content div is missing.  Sub-steps are
evaluated in source order (`user`, then the `Review(...)` keyword arguments
`review_date`, `rating`, `likes_count`), so the first Python exception wins. -/
def reviewOfBlock (element : Node) : Except PyExc (Option Review) :=
  let avatar := findNode (isTagClass "a" "avatar") element
  match (match avatar with
         | some a =>
           match alookup (attrsOf a) "href" with
           | some h => .ok (stripSlashes h)
           | none => .error (PyExc.keyError "'href'")
         | none => .ok "" : Except PyExc String) with
  | .error e => .error e
  | .ok user =>
    let uimg := extract_user_image avatar
    match findNode (isTagClass "div" "film-detail-content") element with
    | none => .ok none
    | some cd =>
      let ab := findNode (isTagClass "div" "attribution-block") cd
      let bt := findNode (isTagClass "div" "body-text") cd
      let rtsp := extract_spoiler_text bt
      match extract_review_date ab with
      | .error e => .error e
      | .ok rdate =>
        match extract_rating ab with
        | .error e => .error e
        | .ok rating =>
          match extract_likes_count cd with
          | .error e => .error e
          | .ok likes =>
            .ok (some (Review.mk user uimg rdate rtsp.1 rating likes rtsp.2))

/-- The `extract_reviews` loop over the matched blocks. -/
def extract_blocks : List Node → Except PyExc (List Review)
  | [] => .ok []
  | e :: rest =>
    match reviewOfBlock e with
    | .error err => .error err
    | .ok none => extract_blocks rest
    | .ok (some r) =>
      match extract_blocks rest with
      | .error err => .error err
      | .ok rs => .ok (r :: rs)

/-- Embeds `ReviewParser.extract_reviews` (lines 138-173) on the parsed document. -/
def extract_reviews (soup : Node) : Except PyExc (List Review) :=
  extract_blocks (findAllNode (isTagClass "li" "film-detail") soup)

/-! ### WhereToWatchParser: JSON values and the availability extractor -/

/-- A parsed JSON value, as `json.loads` hands it to the repository's code
(objects are the duplicate-free key/value maps the stdlib decoder builds;
numbers are exact rationals standing for Python's int/float). -/
inductive JValue where
  | null
  | bool (b : Bool)
  | num (q : Rat)
  | str (s : String)
  | arr (elems : List JValue)
  | obj (fields : List (String × JValue))

/-- Python truthiness of a JSON value. -/
def jTruthy : JValue → Bool
  | .null => false
  | .bool b => b
  | .num q => decide (q ≠ 0)
  | .str s => s != ""
  | .arr xs => !xs.isEmpty
  | .obj fs => !fs.isEmpty

/-- Unsigned decimal literal (`digits`, `digits.`, `.digits`,
`digits.digits`) to a rational, for Python `float(str)`. -/
def parseDecChars (cs : List Char) : Option Rat :=
  let ip := cs.takeWhile Char.isDigit
  match cs.dropWhile Char.isDigit with
  | [] => if ip.isEmpty then none else some ((digitsVal ip : Nat) : Rat)
  | '.' :: frac =>
    if frac.all Char.isDigit && !(ip.isEmpty && frac.isEmpty) then
      some (((digitsVal ip : Nat) : Rat) +
        ((digitsVal frac : Nat) : Rat) / ((10 : Rat) ^ frac.length))
    else none
  | _ => none

/-- Signed decimal part of Python `float(str)`: strip whitespace, optional
sign, simple decimal literal.  (Exponent, `inf`/`nan` and underscore forms
are not modelled; none are reachable from the claims.) -/
def parseSignedDec (s : String) : Option Rat :=
  match stripChars s.toList with
  | '+' :: r => parseDecChars r
  | '-' :: r => (parseDecChars r).map Neg.neg
  | r => parseDecChars r

/-- Python `float(x)` on a JSON value: numbers pass through, bools convert,
numeric strings parse (else `ValueError`), anything else is a `TypeError`. -/
def pyFloat : JValue → Except PyExc Rat
  | .num q => .ok q
  | .bool b => .ok (if b then 1 else 0)
  | .str s =>
    match parseSignedDec s with
    | some q => .ok q
    | none => .error (.valueError ("could not convert string to float: " ++ s))
  | .null => .error .typeError
  | .arr _ => .error .typeError
  | .obj _ => .error .typeError

/-- Python `key in container` for a string key: dict key membership, list
element membership (a string equals only an equal string), substring test on
strings, `TypeError` otherwise. -/
def jContains (v : JValue) (key : String) : Except PyExc Bool :=
  match v with
  | .obj fs => .ok (alookup fs key).isSome
  | .arr xs => .ok (xs.any (fun x => match x with | .str t => t == key | _ => false))
  | .str s => .ok (strContains s key)
  | .null => .error .typeError
  | .bool _ => .error .typeError
  | .num _ => .error .typeError

/-- Python `container[key]` for a string key: dict indexing (`KeyError` when
absent); everything else rejects a string index with `TypeError`. -/
def jIndexStr (v : JValue) (key : String) : Except PyExc JValue :=
  match v with
  | .obj fs =>
    match alookup fs key with
    | some x => .ok x
    | none => .error (.keyError ("'" ++ key ++ "'"))
  | _ => .error .typeError

/-- Python iteration over a value: lists yield elements, strings yield
1-character strings, dicts yield their keys, the rest raise `TypeError`. -/
def jIter : JValue → Except PyExc (List JValue)
  | .arr xs => .ok xs
  | .str s => .ok (s.toList.map (fun c => JValue.str (String.mk [c])))
  | .obj fs => .ok (fs.map (fun kv => JValue.str kv.1))
  | .null => .error .typeError
  | .bool _ => .error .typeError
  | .num _ => .error .typeError

/-- Python `x.get(key, default)`: `AttributeError` unless `x` is a dict. -/
def pyGetD (v : JValue) (key : String) (dflt : JValue) : Except PyExc JValue :=
  match v with
  | .obj fs => .ok ((alookup fs key).getD dflt)
  | _ => .error .attributeError

/-- The `StreamingService` dataclass of `wheretowatch_parser.py` (field order
as in the source).  The string-typed source fields hold whatever JSON value
`service_data.get(field, '')` returns — the dataclass performs no coercion. -/
structure StreamingService where
  name : JValue
  icon : JValue
  locale : JValue
  viewUrl : JValue
  format : JValue
  type : JValue
  price : Option Rat
  currency : JValue

/-- The `price` keyword argument of `_parse_service` (line 46):
`float(service_data['price']) if service_data.get('price') else None`. -/
def priceOf (fields : List (String × JValue)) : Except PyExc (Option Rat) :=
  match alookup fields "price" with
  | none => .ok none
  | some v =>
    if jTruthy v then
      match pyFloat v with
      | .ok q => .ok (some q)
      | .error e => .error e
    else .ok none

/-- Embeds `WhereToWatchParser._parse_service` (lines 29-48): `.get` calls raise
`AttributeError` on a non-dict entry. -/
def parse_service (service_data : JValue) : Except PyExc StreamingService :=
  match service_data with
  | .obj fields =>
    match priceOf fields with
    | .error e => .error e
    | .ok p =>
      .ok (StreamingService.mk
        ((alookup fields "name").getD (.str ""))
        ((alookup fields "icon").getD (.str ""))
        ((alookup fields "locale").getD (.str ""))
        ((alookup fields "viewUrl").getD (.str ""))
        ((alookup fields "format").getD (.str ""))
        ((alookup fields "type").getD (.str ""))
        p
        ((alookup fields "currency").getD (.str "")))
  | _ => .error .attributeError

/-- The list comprehension `[self._parse_service(sd) for sd in ...]`:
elementwise, first exception wins. -/
def svcList : List JValue → Except PyExc (List StreamingService)
  | [] => .ok []
  | x :: xs =>
    match parse_service x with
    | .error e => .error e
    | .ok sv =>
      match svcList xs with
      | .error e => .error e
      | .ok svs => .ok (sv :: svs)

/-- The fixed category order of the `for category in ['stream', 'rent', 'buy']`
loop. -/
def catList : List String := ["stream", "rent", "buy"]

/-- The category loop of `get_services` (lines 66-72), building the result
dict in insertion order. -/
def buildCats (best : JValue) : List String → Except PyExc (List (String × List StreamingService))
  | [] => .ok []
  | cat :: cats =>
    match jContains best cat with
    | .error e => .error e
    | .ok false => buildCats best cats
    | .ok true =>
      match jIndexStr best cat with
      | .error e => .error e
      | .ok v =>
        match jIter v with
        | .error e => .error e
        | .ok items =>
          match svcList items with
          | .error e => .error e
          | .ok svs =>
            match buildCats best cats with
            | .error e => .error e
            | .ok rest => .ok ((cat, svs) :: rest)

/-- The fixed prefix of the wrapping `ValueError`'s message. -/
def wrapMsg (cause : String) : String :=
  "Could not parse streaming services data: " ++ cause

/-- Embeds `WhereToWatchParser.get_services` (lines 50-77).  The argument is the
outcome of `json.loads(self._content)`: `.error cause` models a
`json.JSONDecodeError` with `str(e) = cause`.  The `except (JSONDecodeError,
KeyError)` clause turns exactly those two exception classes into the wrapping
`ValueError`; every other exception escapes unchanged. -/
def get_services (parsed : Except String JValue) : Except PyExc (List (String × List StreamingService)) :=
  match parsed with
  | .error cause => .error (.valueError (wrapMsg cause))
  | .ok data =>
    match pyGetD data "best" (.obj []) with
    | .error e => .error e
    | .ok best =>
      match buildCats best catList with
      | .error (.keyError m) => .error (.valueError (wrapMsg m))
      | r => r

/-! ### Helper lemmas -/

/-- A decimal digit is not Python whitespace. -/
lemma digit_not_space (c : Char) (h : c.isDigit = true) : pyIsSpace c = false := by
  by_contra hne
  rw [Bool.not_eq_false] at hne
  simp only [pyIsSpace, Bool.or_eq_true, beq_iff_eq] at hne
  rcases hne with ((((h1 | h1) | h1) | h1) | h1) | h1 <;> subst h1 <;> exact absurd h (by decide)

/-- A digit differs from any non-digit character. -/
lemma beq_false_of_isDigit_left (c d : Char) (h : c.isDigit = true) (hd : d.isDigit = false) :
    (c == d) = false := by
  rw [beq_eq_false_iff_ne]
  rintro rfl
  simp [h] at hd

/-- Dropping with `dropWhile` is the identity when nothing satisfies the predicate. -/
lemma dropWhile_eq_self (p : Char → Bool) (l : List Char) (h : ∀ c ∈ l, p c = false) :
    l.dropWhile p = l := by
  cases l with
  | nil => rfl
  | cons c cs => simp [List.dropWhile_cons, h c (by simp)]

/-- Stripping is the identity on whitespace-free lists. -/
lemma stripChars_eq_self (l : List Char) (h : ∀ c ∈ l, pyIsSpace c = false) :
    stripChars l = l := by
  unfold stripChars dropEndWhile
  rw [dropWhile_eq_self _ _ h]
  rw [dropWhile_eq_self _ _ (fun c hc => h c (List.mem_reverse.mp hc))]
  exact List.reverse_reverse l

/-- Stripping only removes characters. -/
lemma mem_stripChars {a : Char} {l : List Char} (h : a ∈ stripChars l) : a ∈ l := by
  unfold stripChars dropEndWhile at h
  rw [List.mem_reverse] at h
  have h2 := (List.dropWhile_sublist pyIsSpace).subset h
  rw [List.mem_reverse] at h2
  exact (List.dropWhile_sublist pyIsSpace).subset h2

/-- Conversion `int()` on a nonempty pure-digit list succeeds with its value. -/
lemma pyIntChars_digits (l : List Char) (hne : l ≠ []) (h : ∀ c ∈ l, c.isDigit = true) :
    pyIntChars l = .ok (Int.ofNat (digitsVal l)) := by
  have hs : stripChars l = l := stripChars_eq_self l (fun c hc => digit_not_space c (h c hc))
  unfold pyIntChars
  rw [hs]
  cases l with
  | nil => exact absurd rfl hne
  | cons c cs =>
    have hc := h c (by simp)
    have h1 : (c == '+') = false := beq_false_of_isDigit_left c '+' hc (by decide)
    have h2 : (c == '-') = false := beq_false_of_isDigit_left c '-' hc (by decide)
    have h3 : (c :: cs).all Char.isDigit = true := List.all_eq_true.mpr h
    simp [pyIntCore, h1, h2, digitsToNatE, h3]

/-- Splitting at an absent separator returns the whole list. -/
lemma splitOnChar_eq_of_not_mem {c : Char} {l : List Char} (h : c ∉ l) :
    splitOnChar c l = [l] := by
  induction l with
  | nil => rfl
  | cons x xs ih =>
    have hx : (x == c) = false := by
      rw [beq_eq_false_iff_ne]; rintro rfl; exact h (by simp)
    have hxs : c ∉ xs := fun hm => h (by simp [hm])
    simp [splitOnChar, hx, ih hxs]

/-- No piece of a split contains the separator. -/
lemma splitOnChar_sep_not_mem {c : Char} :
    ∀ {l part : List Char}, part ∈ splitOnChar c l → c ∉ part := by
  intro l
  induction l with
  | nil =>
    intro part h
    simp [splitOnChar] at h
    subst h; simp
  | cons x xs ih =>
    intro part h
    by_cases hx : (x == c) = true
    · simp [splitOnChar, hx] at h
      rcases h with h | h
      · subst h; simp
      · exact ih h
    · rw [Bool.not_eq_true] at hx
      have hne : x ≠ c := by rwa [beq_eq_false_iff_ne] at hx
      cases hsp : splitOnChar c xs with
      | nil =>
        simp [splitOnChar, hx, hsp] at h
        subst h
        simp [Ne.symm hne]
      | cons q qs =>
        simp [splitOnChar, hx, hsp] at h
        rcases h with h | h
        · subst h
          intro hm
          rcases List.mem_cons.mp hm with hm1 | hm2
          · exact hne hm1.symm
          · exact ih (hsp ▸ List.mem_cons_self q qs) hm2
        · exact ih (hsp ▸ List.mem_cons_of_mem q h)

/-- Indexing the pieces of a split never yields the separator. -/
lemma getD_splitOnChar_not_mem (c : Char) (l : List Char) :
    c ∉ (splitOnChar c l).getD 1 [] := by
  cases hsp : splitOnChar c l with
  | nil => simp
  | cons p ps =>
    cases ps with
    | nil => simp
    | cons p1 ps' =>
      simp only [List.getD_cons_succ, List.getD_cons_zero]
      exact splitOnChar_sep_not_mem (hsp ▸ (by simp : p1 ∈ p :: p1 :: ps'))

/-- Rendering `str(int(digits) / 2)` agrees with the half-step printer. -/
lemma intHalfStr_ofNat (n : Nat) : intHalfStr (Int.ofNat n) = halfStr n := by
  simp [intHalfStr]

/-- Conversion `int()` of a text with no minus sign is non-negative. -/
lemma pyIntChars_nonneg {cs : List Char} (h : '-' ∉ cs) {i : Int}
    (hok : pyIntChars cs = .ok i) : 0 ≤ i := by
  unfold pyIntChars at hok
  cases hs : stripChars cs with
  | nil => rw [hs] at hok; exact absurd hok (by simp [pyIntCore])
  | cons c rest =>
    rw [hs] at hok
    simp only [pyIntCore] at hok
    by_cases hp : (c == '+') = true
    · rw [if_pos hp] at hok
      cases hd : digitsToNatE rest with
      | ok n =>
        simp only [hd] at hok
        injection hok with h'
        exact h' ▸ Int.ofNat_nonneg n
      | error e => simp [hd] at hok
    · rw [Bool.not_eq_true] at hp
      have hm : (c == '-') = false := by
        rw [beq_eq_false_iff_ne]
        rintro rfl
        exact h (mem_stripChars (hs ▸ List.mem_cons_self _ _))
      simp only [hp, hm, Bool.false_eq_true, if_false] at hok
      cases hd : digitsToNatE (c :: rest) with
      | ok n =>
        simp only [hd] at hok
        injection hok with h'
        exact h' ▸ Int.ofNat_nonneg n
      | error e => simp [hd] at hok

/-- A service record whose only non-default field is the name (fixture for
concrete instances). -/
def svNamed (nm : String) : StreamingService :=
  StreamingService.mk (.str nm) (.str "") (.str "") (.str "") (.str "") (.str "")
    none (.str "")

/-- Fixture: a `best` object with a two-entry `stream` array and an empty
`buy` array, `rent` absent. -/
def streamTwo : List (String × JValue) :=
  [("stream", JValue.arr [JValue.obj [("name", JValue.str "A")],
                          JValue.obj [("name", JValue.str "B")]]),
   ("buy", JValue.arr [])]

/-! ### Claim C1 -/

/-- Claim C1 (code_bug evidence).  A document with zero matching review
blocks yields the empty list, as claimed; but `extract_reviews` is not
exception-free for every document: a matched block whose content div has no
attribution block reaches `self._extract_review_date(None)` (line 165 calls
it with the result of the `find` on line 157), and `None.find(...)` raises
`AttributeError`, aborting the whole parse instead of degrading to the
documented defaults. -/
theorem extract_reviews_attribution_crash :
    extract_reviews (Node.elem "[document]" [] []) = .ok [] ∧
    extract_reviews (Node.elem "[document]" []
      [Node.elem "li" [("class", "film-detail")]
        [Node.elem "div" [("class", "film-detail-content")] []]]) =
      .error PyExc.attributeError :=
  ⟨rfl, rfl⟩

/-! ### Claim C2 -/

/-- Claim C2, counterexample.  The JSON text `"3"` is valid JSON, yet the
structural key `'best'` cannot be traversed on it; the claim promises the
designated wrapping `ValueError`, but `data.get('best', {})` raises an
`AttributeError` that the `except (json.JSONDecodeError, KeyError)` clause
does not catch. -/
theorem get_services_nonobject_attribute_error :
    get_services (.ok (JValue.num 3)) = .error PyExc.attributeError := rfl

/-- Claim C2, amended.  For every input that is not valid JSON, the decoder's
error is caught and re-raised as the designated `ValueError` whose message
wraps the underlying cause; no other exception can escape for malformed
input.  (Traversal failure on valid non-object JSON instead escapes as an
`AttributeError`, per the counterexample.) -/
theorem get_services_malformed_json_wrapped (cause : String) :
    get_services (.error cause) = .error (.valueError (wrapMsg cause)) := rfl

/-! ### Claim C9 -/

/-- Claim C9.  The profile image URL: absent avatar link, absent `img`, or
absent `src` give the empty string; a root-relative `src` (leading `/`, not
`//`) is resolved against `https://letterboxd.com`; any `src` not starting
with `/` — in particular an absolute URL — passes through unchanged. -/
theorem extract_user_image_resolution :
    (extract_user_image none = "") ∧
    (∀ a : Node, findNode (isTag "img") a = none → extract_user_image (some a) = "") ∧
    (∀ a img : Node, findNode (isTag "img") a = some img →
      alookup (attrsOf img) "src" = none → extract_user_image (some a) = "") ∧
    (∀ (a img : Node) (u : String), findNode (isTag "img") a = some img →
      alookup (attrsOf img) "src" = some u → strStartsWith u "/" = true →
      strStartsWith u "//" = false →
      extract_user_image (some a) = "https://letterboxd.com" ++ u) ∧
    (∀ (a img : Node) (u : String), findNode (isTag "img") a = some img →
      alookup (attrsOf img) "src" = some u → strStartsWith u "/" = false →
      extract_user_image (some a) = u) := by
  refine ⟨rfl, ?_, ?_, ?_, ?_⟩
  · intro a h
    simp [extract_user_image, h]
  · intro a img h1 h2
    simp [extract_user_image, h1, h2]
  · intro a img u h1 h2 h3 h4
    simp [extract_user_image, h1, h2, h3, urljoinBase, h4]
  · intro a img u h1 h2 h3
    simp [extract_user_image, h1, h2, h3]

/-- Claim C9, witness: concrete round-trips. -/
theorem extract_user_image_resolution_witness :
    extract_user_image (some (Node.elem "a" [("class", "avatar")]
      [Node.elem "img" [("src", "/avatar/abc.jpg")] []])) =
      "https://letterboxd.com/avatar/abc.jpg" ∧
    extract_user_image (some (Node.elem "a" [("class", "avatar")]
      [Node.elem "img" [("src", "https://cdn.example/a.jpg")] []])) =
      "https://cdn.example/a.jpg" :=
  ⟨extract_user_image_resolution.2.2.2.1 _ _ "/avatar/abc.jpg" rfl rfl rfl rfl,
   extract_user_image_resolution.2.2.2.2 _ _ "https://cdn.example/a.jpg" rfl rfl rfl⟩

/-! ### Claim C10 -/

/-- Claim C10.  A body with the spoiler marker but no `hidden-spoilers` div
still sets the flag, and its review text is the empty string — the visible
paragraphs are never used as a fallback source. -/
theorem spoiler_without_hidden_block_empty :
    ∀ body p : Node, findNode (isTagClass "p" "contains-spoilers") body = some p →
      findNode (isTagClass "div" "hidden-spoilers") body = none →
      extract_spoiler_text (some body) = ("", true) := by
  intro body p h1 h2
  simp [extract_spoiler_text, h1, h2]
  rfl

/-- Claim C10, witness: a marked body with a visible paragraph and no hidden
section yields the empty text. -/
theorem spoiler_without_hidden_block_empty_witness :
    extract_spoiler_text (some (Node.elem "div" [("class", "body-text")]
      [Node.elem "p" [("class", "contains-spoilers")]
        [Node.text "This review may contain spoilers."],
       Node.elem "p" [] [Node.text "a visible paragraph"]])) = ("", true) :=
  spoiler_without_hidden_block_empty _ _ rfl rfl

/-! ### Claim C4 -/

/-- Claim C4.  Spoiler gating: a missing body gives `("", false)`; with the
marker present and a hidden section, the text is exactly the hidden section's
paragraphs joined with single spaces and cleaned (so every other paragraph is
excluded) and the flag is set; without the marker, the text comes from all
paragraphs of the body and the flag is clear. -/
theorem extract_spoiler_text_gating :
    (extract_spoiler_text none = ("", false)) ∧
    (∀ body p hd : Node, findNode (isTagClass "p" "contains-spoilers") body = some p →
      findNode (isTagClass "div" "hidden-spoilers") body = some hd →
      extract_spoiler_text (some body) = (clean_review_text (joinPs hd), true)) ∧
    (∀ body : Node, findNode (isTagClass "p" "contains-spoilers") body = none →
      extract_spoiler_text (some body) = (clean_review_text (joinPs body), false)) := by
  refine ⟨rfl, ?_, ?_⟩
  · intro body p hd h1 h2
    simp [extract_spoiler_text, h1, h2]
  · intro body h1
    simp [extract_spoiler_text, h1]

/-- Claim C4, witness: the hidden paragraphs are joined, collapsed and
trimmed; the visible paragraph text is excluded; an unmarked body takes all
paragraphs. -/
theorem extract_spoiler_text_gating_witness :
    extract_spoiler_text (some (Node.elem "div" [("class", "body-text")]
      [Node.elem "p" [("class", "contains-spoilers")] [Node.text "warning"],
       Node.elem "div" [("class", "hidden-spoilers")]
         [Node.elem "p" [] [Node.text "  hidden   one "],
          Node.elem "p" [] [Node.text "two"]],
       Node.elem "p" [] [Node.text "visible"]])) = ("hidden one two", true) ∧
    extract_spoiler_text (some (Node.elem "div" [("class", "body-text")]
      [Node.elem "p" [] [Node.text "plain  text"],
       Node.elem "p" [] [Node.text "more"]])) = ("plain text more", false) :=
  ⟨extract_spoiler_text_gating.2.1 _ _
      (Node.elem "div" [("class", "hidden-spoilers")]
        [Node.elem "p" [] [Node.text "  hidden   one "],
         Node.elem "p" [] [Node.text "two"]]) rfl rfl,
   extract_spoiler_text_gating.2.2 _ rfl⟩

/-! ### Claim C7 -/

/-- Claim C7.  `_parse_service` sets `price` to the float conversion of the
source `price` field exactly when it is present and truthy, and to `None`
when it is missing, JSON `null`, or zero; the concrete payload
`best.rent = [..name N, price 0..]` yields one rent entry with `price = None`. -/
theorem parse_service_price_truthiness :
    (∀ fields : List (String × JValue), alookup fields "price" = none →
      (parse_service (.obj fields)).map StreamingService.price = .ok none) ∧
    (∀ fields : List (String × JValue), alookup fields "price" = some JValue.null →
      (parse_service (.obj fields)).map StreamingService.price = .ok none) ∧
    (∀ fields : List (String × JValue), alookup fields "price" = some (JValue.num 0) →
      (parse_service (.obj fields)).map StreamingService.price = .ok none) ∧
    (∀ (fields : List (String × JValue)) (q : Rat), q ≠ 0 →
      alookup fields "price" = some (JValue.num q) →
      (parse_service (.obj fields)).map StreamingService.price = .ok (some q)) ∧
    (∃ sv, get_services (.ok (JValue.obj [("best", JValue.obj [("rent",
        JValue.arr [JValue.obj [("name", JValue.str "N"), ("price", JValue.num 0)]])])]))
        = .ok [("rent", [sv])] ∧ sv.price = none) := by
  refine ⟨?_, ?_, ?_, ?_, ?_⟩
  · intro fields h
    simp [parse_service, priceOf, h, Except.map]
  · intro fields h
    simp [parse_service, priceOf, h, jTruthy, Except.map]
  · intro fields h
    simp [parse_service, priceOf, h, jTruthy, Except.map]
  · intro fields q hq h
    simp [parse_service, priceOf, h, jTruthy, hq, pyFloat, Except.map]
  · exact ⟨StreamingService.mk (.str "N") (.str "") (.str "") (.str "") (.str "")
      (.str "") none (.str ""), rfl, rfl⟩

/-- Claim C7, witness: a truthy numeric price converts, a missing price is
`None`. -/
theorem parse_service_price_truthiness_witness :
    (parse_service (.obj [("name", JValue.str "N"), ("price", JValue.num 2)])).map
      StreamingService.price = .ok (some 2) ∧
    (parse_service (.obj [("name", JValue.str "N")])).map
      StreamingService.price = .ok none :=
  ⟨parse_service_price_truthiness.2.2.2.1 _ 2 (by norm_num) rfl,
   parse_service_price_truthiness.1 _ rfl⟩

/-- Fixture: an unparseable machine timestamp with visible fallback text. -/
def timeBad : Node :=
  Node.elem "time" [("datetime", "bogus")] [Node.text "  5 days ago  "]

/-- Fixture: the date container around `timeBad`. -/
def nobrBad : Node :=
  Node.elem "span" [("class", "_nobr")] [timeBad]

/-- Fixture: an attribution block whose timestamp does not parse. -/
def abBad : Node :=
  Node.elem "div" [("class", "attribution-block")] [nobrBad]

/-! ### Claim C8 -/

/-- Claim C8.  Review-date extraction on a block's attribution node: no
`_nobr` date container gives the empty string; a `time` element whose
`datetime` attribute parses (after the literal-`Z` to `+00:00` rewrite) as an
ISO-8601 instant is reformatted as `DD Mon YYYY`; a failing parse, a missing
attribute, or a missing `time` element fall back to the container's visible
text, stripped. -/
theorem extract_review_date_rules :
    ∀ ab : Node,
      (findNode (isTagClass "span" "_nobr") ab = none →
        extract_review_date (some ab) = .ok "") ∧
      (∀ ds : Node, findNode (isTagClass "span" "_nobr") ab = some ds →
        ((∀ (t : Node) (v : String) (y m d : Nat),
            findNode (isTag "time") ds = some t →
            alookup (attrsOf t) "datetime" = some v →
            fromisoformat (pyReplace v "Z" "+00:00") = some (y, m, d) →
            extract_review_date (some ab) = .ok (fmtDMonY d m y)) ∧
         (∀ (t : Node) (v : String),
            findNode (isTag "time") ds = some t →
            alookup (attrsOf t) "datetime" = some v →
            fromisoformat (pyReplace v "Z" "+00:00") = none →
            extract_review_date (some ab) = .ok (pyStrip (nodeText ds))) ∧
         (∀ t : Node, findNode (isTag "time") ds = some t →
            alookup (attrsOf t) "datetime" = none →
            extract_review_date (some ab) = .ok (pyStrip (nodeText ds))) ∧
         (findNode (isTag "time") ds = none →
            extract_review_date (some ab) = .ok (pyStrip (nodeText ds))))) := by
  intro ab
  constructor
  · intro h
    simp [extract_review_date, h]
  · intro ds hds
    refine ⟨?_, ?_, ?_, ?_⟩
    · intro t v y m d h1 h2 h3
      simp [extract_review_date, hds, h1, h2, h3]
    · intro t v h1 h2 h3
      simp [extract_review_date, hds, h1, h2, h3]
    · intro t h1 h2
      simp [extract_review_date, hds, h1, h2]
    · intro h1
      simp [extract_review_date, hds, h1]

/-- Claim C8, witness: a `Z`-suffixed timestamp renders as `05 Jan 2024`, an
unparseable attribute falls back to the stripped visible text, a block
without a date container gives the empty string. -/
theorem extract_review_date_rules_witness :
    extract_review_date (some (Node.elem "div" [("class", "attribution-block")]
      [Node.elem "span" [("class", "_nobr")]
        [Node.elem "time" [("datetime", "2024-01-05T10:30:00Z")] [Node.text "x"]]]))
      = .ok "05 Jan 2024" ∧
    extract_review_date (some abBad) = .ok "5 days ago" ∧
    extract_review_date (some (Node.elem "div" [("class", "attribution-block")] []))
      = .ok "" := by
  refine ⟨?_, ?_, ?_⟩
  · exact ((extract_review_date_rules _).2 _ (by rfl)).1 _ "2024-01-05T10:30:00Z" 2024 1 5
      (by rfl) (by rfl) (by rfl)
  · exact ((extract_review_date_rules abBad).2 nobrBad rfl).2.1 timeBad "bogus" rfl rfl rfl
  · exact (extract_review_date_rules _).1 rfl

/-! ### Claim C3 -/

/-- Claim C3, counterexample.  A block whose rating indicator exists but has
empty text: the claim's glyph-counting clause demands rating `"0.0"` (zero
full stars, no half star), but the code returns `None` for an indicator whose
stripped text is empty. -/
theorem extract_rating_empty_indicator :
    (findNode (isTagClass "span" "rating")
      (Node.elem "div" [("class", "attribution-block")]
        [Node.elem "span" [("class", "rating")] []])).isSome = true ∧
    extract_rating (some (Node.elem "div" [("class", "attribution-block")]
      [Node.elem "span" [("class", "rating")] []])) = .ok none :=
  ⟨rfl, rfl⟩

/-- Claim C3, amended.  With an attribution node present: a first rating
class token of the form `rated-N` (N a digit run; the bound keeps `str(N/2)`
inside the range where CPython prints floats in plain decimal) gives `N/2`
as a decimal string; with no such token and nonempty stripped indicator text
the rating counts full-star glyphs plus one half for a half-star glyph; with
no such token and empty stripped text the rating is `None`; with no rating
indicator at all the rating is `None`. -/
theorem extract_rating_encoding :
    ∀ ab : Node,
      (findNode (isTagClass "span" "rating") ab = none →
        extract_rating (some ab) = .ok none) ∧
      (∀ sp : Node, findNode (isTagClass "span" "rating") ab = some sp →
        ((∀ (ds : List Char) (rest : List String) (n : Nat),
            (classesOf sp).filter (fun c => strStartsWith c "rated-") =
              (String.mk ('r' :: 'a' :: 't' :: 'e' :: 'd' :: '-' :: ds)) :: rest →
            ds ≠ [] → (∀ c ∈ ds, c.isDigit = true) →
            digitsVal ds = n → n ≤ 10 ^ 15 →
            extract_rating (some ab) = .ok (some (halfStr n))) ∧
         (∀ st : String,
            (classesOf sp).filter (fun c => strStartsWith c "rated-") = [] →
            pyStrip (nodeText sp) = st → st ≠ "" →
            extract_rating (some ab) = .ok (some (halfStr
              (2 * countChar '★' st + (if strHasChar '½' st then 1 else 0))))) ∧
         ((classesOf sp).filter (fun c => strStartsWith c "rated-") = [] →
            pyStrip (nodeText sp) = "" →
            extract_rating (some ab) = .ok none))) := by
  intro ab
  constructor
  · intro h
    simp [extract_rating, h]
  · intro sp hsp
    refine ⟨?_, ?_, ?_⟩
    · intro ds rest n hfilter hne hdig hval hbound
      have hnm : '-' ∉ ds := by
        intro hm
        exact absurd (hdig '-' hm) (by decide)
      have hsplit : splitOnChar '-' ('r' :: 'a' :: 't' :: 'e' :: 'd' :: '-' :: ds) =
          [['r', 'a', 't', 'e', 'd'], ds] := by
        simp [splitOnChar, splitOnChar_eq_of_not_mem hnm]
      have htl : (String.mk ('r' :: 'a' :: 't' :: 'e' :: 'd' :: '-' :: ds)).toList =
          'r' :: 'a' :: 't' :: 'e' :: 'd' :: '-' :: ds := rfl
      simp only [extract_rating, hsp, hfilter, htl, hsplit, List.getD_cons_succ,
        List.getD_cons_zero, pyIntChars_digits ds hne hdig, intHalfStr_ofNat, hval]
    · intro st hfilter hst hne
      have hne' : (st == "") = false := by
        rw [beq_eq_false_iff_ne]; exact hne
      simp [extract_rating, hsp, hfilter, hst, hne']
    · intro hfilter hst
      simp [extract_rating, hsp, hfilter, hst]

/-- Claim C3, witness: `rated-7` gives `"3.5"`, text `★★★½` gives `"3.5"`,
an empty indicator gives `None`, a missing indicator gives `None`. -/
theorem extract_rating_encoding_witness :
    extract_rating (some (Node.elem "div" []
      [Node.elem "span" [("class", "rating rated-7")] []])) = .ok (some "3.5") ∧
    extract_rating (some (Node.elem "div" []
      [Node.elem "span" [("class", "rating")] [Node.text "★★★½"]])) = .ok (some "3.5") ∧
    extract_rating (some (Node.elem "div" []
      [Node.elem "span" [("class", "rating")] [Node.text "  "]])) = .ok none ∧
    extract_rating (some (Node.elem "div" [] [Node.text "no indicator"])) = .ok none := by
  refine ⟨?_, ?_, ?_, ?_⟩
  · exact ((extract_rating_encoding _).2 _ (by rfl)).1 ['7'] [] 7 (by rfl) (by decide)
      (by decide) rfl (by norm_num)
  · exact ((extract_rating_encoding _).2 _ (by rfl)).2.1 "★★★½" (by rfl) (by rfl) (by decide)
  · exact ((extract_rating_encoding _).2 _ (by rfl)).2.2 (by rfl) (by rfl)
  · exact (extract_rating_encoding _).1 rfl

/-! ### Claim C6 -/

/-- Claim C6, counterexample.  The code enforces no bounds: a present,
truthy, *negative* source price converts to a negative `price` (here `-1`),
contradicting the claimed non-negativity invariant.  (Likewise `rated-11`
would give rating `"5.5"`, outside `[0.0, 5.0]`.) -/
theorem parse_service_negative_price :
    (parse_service (.obj [("name", JValue.str "N"), ("price", JValue.num (-1))])).map
      StreamingService.price = .ok (some (-1)) ∧ ((-1 : Rat) < 0) :=
  ⟨rfl, by norm_num⟩

/-- Claim C6, amended.  Every successfully extracted rating string is
`str(n / 2)` for some natural half-step count `n` — a non-negative multiple
of 0.5, though not necessarily within `[0.0, 5.0]`; and whenever a parsed
service has a price, it is exactly the float conversion of a present, truthy
source `price` value — which may be negative.  (`review_text` is a string
and `contains_spoilers` a boolean by construction of `extract_spoiler_text`.) -/
theorem review_invariants_amended :
    (∀ (ab : Option Node) (s : String), extract_rating ab = .ok (some s) →
      ∃ n : Nat, s = halfStr n) ∧
    (∀ (fields : List (String × JValue)) (sv : StreamingService),
      parse_service (.obj fields) = .ok sv → ∀ q : Rat, sv.price = some q →
      ∃ v, alookup fields "price" = some v ∧ jTruthy v = true ∧ pyFloat v = .ok q) := by
  constructor
  · intro ab s h
    match ab with
    | none => simp [extract_rating] at h
    | some a =>
      cases hf : findNode (isTagClass "span" "rating") a with
      | none => simp [extract_rating, hf] at h
      | some sp =>
        simp only [extract_rating, hf] at h
        cases hfl : (classesOf sp).filter (fun c => strStartsWith c "rated-") with
        | cons t ts =>
          simp only [hfl] at h
          split at h
          · rename_i i hint
            have hpos : 0 ≤ i :=
              pyIntChars_nonneg (getD_splitOnChar_not_mem '-' t.toList) hint
            refine ⟨i.toNat, ?_⟩
            simp only [Except.ok.injEq, Option.some.injEq] at h
            rw [← h, intHalfStr, if_neg (not_lt.mpr hpos)]
          · simp at h
        | nil =>
          simp only [hfl] at h
          by_cases hst : (pyStrip (nodeText sp) == "") = true
          · simp only [hst, if_pos] at h
            simp at h
          · rw [Bool.not_eq_true] at hst
            simp only [hst, Bool.false_eq_true, if_false] at h
            simp only [Except.ok.injEq, Option.some.injEq] at h
            exact ⟨_, h.symm⟩
  · intro fields sv h q hq
    cases hp : priceOf fields with
    | error e => simp [parse_service, hp] at h
    | ok p =>
      simp only [parse_service, hp] at h
      injection h with h2
      subst h2
      have hq2 : p = some q := hq
      unfold priceOf at hp
      split at hp
      · injection hp with hp2
        rw [← hp2] at hq2
        exact absurd hq2 (by simp)
      · rename_i v hl
        split at hp
        · rename_i ht
          split at hp
          · rename_i q2 hfv
            injection hp with hp2
            rw [← hp2] at hq2
            simp only [Option.some.injEq] at hq2
            exact ⟨v, hl, ht, by rw [hfv, hq2]⟩
          · simp at hp
        · rename_i ht
          injection hp with hp2
          rw [← hp2] at hq2
          exact absurd hq2 (by simp)

/-- Claim C6, amended, witness: the extracted `rated-11` rating `"5.5"` is a
half-step string, and the negative concrete price `-1` arises from the
truthy source value `-1`. -/
theorem review_invariants_amended_witness :
    (∃ n : Nat, "5.5" = halfStr n) ∧
    (∃ v, alookup [("name", JValue.str "N"), ("price", JValue.num (-1))] "price" = some v ∧
      jTruthy v = true ∧ pyFloat v = .ok (-1)) :=
  ⟨review_invariants_amended.1
      (some (Node.elem "div" [] [Node.elem "span" [("class", "rating rated-11")] []]))
      "5.5" rfl,
   review_invariants_amended.2 [("name", JValue.str "N"), ("price", JValue.num (-1))]
      (StreamingService.mk (.str "N") (.str "") (.str "") (.str "") (.str "") (.str "")
        (some (-1)) (.str "")) rfl (-1) rfl⟩

/-! ### Claim C5 -/

/-- The comprehension preserves length and maps the source array
element-by-element, in order. -/
lemma svcList_elementwise :
    ∀ (xs : List JValue) (l : List StreamingService), svcList xs = .ok l →
      l.length = xs.length ∧
      ∀ (i : Nat) (h1 : i < xs.length) (h2 : i < l.length),
        parse_service (xs.get ⟨i, h1⟩) = .ok (l.get ⟨i, h2⟩) := by
  intro xs
  induction xs with
  | nil =>
    intro l h
    simp only [svcList, Except.ok.injEq] at h
    subst h
    refine ⟨rfl, ?_⟩
    intro i h1 h2
    exact absurd h1 (by simp)
  | cons x xs ih =>
    intro l h
    simp only [svcList] at h
    split at h
    · simp at h
    · rename_i sv hpe
      split at h
      · simp at h
      · rename_i svs hsv
        injection h with h2
        subst h2
        obtain ⟨ihlen, ihel⟩ := ih svs hsv
        refine ⟨by simp [ihlen], ?_⟩
        intro i h1 h2
        cases i with
        | zero => exact hpe
        | succ n => exact ihel n (by simpa using h1) (by simpa using h2)

/-- Unrolling the category loop over an object `best`: it succeeds when every
present category holds a cleanly parseable array, its keys are exactly the
present categories in loop order, and each key maps to its array's parse. -/
lemma buildCats_spec (best : List (String × JValue)) :
    ∀ cats : List String,
      (∀ cat ∈ cats, ∀ v, alookup best cat = some v →
        ∃ xs l, v = JValue.arr xs ∧ svcList xs = .ok l) →
      ∃ m, buildCats (.obj best) cats = .ok m ∧
        m.map Prod.fst = cats.filter (fun c => (alookup best c).isSome) ∧
        (∀ (cat : String) (xs : List JValue) (l : List StreamingService),
          cat ∈ cats → alookup best cat = some (JValue.arr xs) →
          svcList xs = .ok l → alookup m cat = some l) := by
  intro cats
  induction cats with
  | nil =>
    intro h
    refine ⟨[], rfl, rfl, ?_⟩
    intro cat xs l hc
    simp at hc
  | cons cat cats ih =>
    intro h
    obtain ⟨m', hm', hkeys, hlookup⟩ := ih (fun c hc v hv => h c (by simp [hc]) v hv)
    cases hl : alookup best cat with
    | none =>
      refine ⟨m', ?_, ?_, ?_⟩
      · simp [buildCats, jContains, hl, hm']
      · simp [List.filter_cons, hl, hkeys]
      · intro c xs l hc hv hsv
        rcases List.mem_cons.mp hc with hceq | hc2
        · subst hceq
          rw [hl] at hv
          exact absurd hv (by simp)
        · exact hlookup c xs l hc2 hv hsv
    | some v =>
      obtain ⟨xs, l, hveq, hsv⟩ := h cat (by simp) v hl
      subst hveq
      refine ⟨(cat, l) :: m', ?_, ?_, ?_⟩
      · simp [buildCats, jContains, jIndexStr, jIter, hl, hsv, hm']
      · simp [List.filter_cons, hl, hkeys]
      · intro c xs2 l2 hc hv hsv2
        by_cases hcc : c = cat
        · subst hcc
          rw [hl] at hv
          injection hv with hv2
          injection hv2 with hv3
          subst hv3
          rw [hsv] at hsv2
          injection hsv2 with hsv3
          subst hsv3
          simp [alookup]
        · have hne : (cat == c) = false := by
            rw [beq_eq_false_iff_ne]
            exact fun hx => hcc hx.symm
          rcases List.mem_cons.mp hc with hceq | hc2
          · exact absurd hceq hcc
          · simp only [alookup, hne, Bool.false_eq_true, if_false]
            exact hlookup c xs2 l2 hc2 hv hsv2

/-- Claim C5.  For a payload whose `best` value is an object, all of whose
present categories hold cleanly parseable arrays: `get_services` succeeds,
its keys are exactly the members of `stream`/`rent`/`buy` present in `best`
(absent categories are simply omitted), each present category maps to its
array's parse, and that parse follows the source array order
element-by-element. -/
theorem get_services_categories_order :
    (∀ (fields best : List (String × JValue)),
      alookup fields "best" = some (JValue.obj best) →
      (∀ cat ∈ catList, ∀ v, alookup best cat = some v →
        ∃ xs l, v = JValue.arr xs ∧ svcList xs = .ok l) →
      ∃ m, get_services (.ok (JValue.obj fields)) = .ok m ∧
        m.map Prod.fst = catList.filter (fun c => (alookup best c).isSome) ∧
        (∀ (cat : String) (xs : List JValue) (l : List StreamingService),
          cat ∈ catList → alookup best cat = some (JValue.arr xs) →
          svcList xs = .ok l → alookup m cat = some l)) ∧
    (∀ (xs : List JValue) (l : List StreamingService), svcList xs = .ok l →
      l.length = xs.length ∧
      ∀ (i : Nat) (h1 : i < xs.length) (h2 : i < l.length),
        parse_service (xs.get ⟨i, h1⟩) = .ok (l.get ⟨i, h2⟩)) := by
  constructor
  · intro fields best hbest hcats
    obtain ⟨m, hb, hk, hl⟩ := buildCats_spec best catList hcats
    refine ⟨m, ?_, hk, hl⟩
    simp [get_services, pyGetD, hbest, hb]
  · exact svcList_elementwise

/-- Claim C5, witness: `stream` (two entries, source order) and `buy`
(empty) are present, `rent` is absent, so the keys are exactly
`stream, buy` and the stream entries keep their order. -/
theorem get_services_categories_order_witness :
    ∃ m, get_services (.ok (JValue.obj [("best", JValue.obj streamTwo)])) = .ok m ∧
      m.map Prod.fst = ["stream", "buy"] ∧
      alookup m "stream" = some [svNamed "A", svNamed "B"] := by
  have hcats : ∀ cat ∈ catList, ∀ v, alookup streamTwo cat = some v →
      ∃ xs l, v = JValue.arr xs ∧ svcList xs = .ok l := by
    intro cat hc v hv
    simp only [catList] at hc
    fin_cases hc
    · simp only [streamTwo, alookup] at hv
      simp at hv
      subst hv
      exact ⟨_, [svNamed "A", svNamed "B"], rfl, rfl⟩
    · simp [streamTwo, alookup] at hv
    · simp only [streamTwo, alookup] at hv
      simp at hv
      subst hv
      exact ⟨[], [], rfl, rfl⟩
  obtain ⟨m, h1, h2, h3⟩ := get_services_categories_order.1
    [("best", JValue.obj streamTwo)] streamTwo rfl hcats
  refine ⟨m, h1, ?_, ?_⟩
  · exact h2
  · exact h3 "stream"
      [JValue.obj [("name", JValue.str "A")], JValue.obj [("name", JValue.str "B")]]
      [svNamed "A", svNamed "B"] (by simp [catList]) rfl rfl

/-- Claim C2, amended, witness: a concrete decode failure is wrapped. -/
theorem get_services_malformed_json_wrapped_witness :
    get_services (.error "Expecting value: line 1 column 1 (char 0)") =
      .error (.valueError
        "Could not parse streaming services data: Expecting value: line 1 column 1 (char 0)") :=
  get_services_malformed_json_wrapped "Expecting value: line 1 column 1 (char 0)"
